import Mathlib

/-!
Verification of the vector router module (`routers/vector_router.py`) of the
second-brain service: a shallow embedding of its request handlers and of the
background database-sync task, with theorems about their behaviour.

External collaborators (the Notion client, the vector store `VectorDB`, the
RAG service) are modelled as oracle parameters: a fallible call becomes a
value or function of type `Except String _`, where `.error e` stands for the
call raising an exception whose message is `e`.
-/

namespace VectorRouter

/-- `true` exactly when an `Except` value models a raised exception. -/
def exceptErr {ε α : Type} : Except ε α → Bool
  | .error _ => true
  | .ok _ => false

/-- A Notion page as this module sees it: only its identifier is consulted by
the router (`page["id"]`); all other metadata is opaque to it. -/
structure Page where
  id : String
deriving DecidableEq

/-! ## Chat endpoint (`chat_with_knowledge_base`) -/

/-- One entry of the RAG result's `sources` list; `page_url` is `none` when the
`page_url` key is absent (`source.get("page_url")`). -/
structure Source where
  page_url : Option String
deriving DecidableEq

/-- The dict returned by `rag_service.answer_question`: `answer` and
`context_used` are accessed with `[]` (required keys), `sources` and
`model_used` with `.get` (optional keys, `none` when absent). -/
structure RagAnswer where
  answer : String
  context_used : Bool
  sources : Option (List Source)
  model_used : Option String
deriving DecidableEq

/-- The chat response payload; `source_urls = none` models the key being
absent from the returned dict. -/
structure ChatResponse where
  question : String
  answer : String
  context_used : Bool
  sources_count : Nat
  model : Option String
  source_urls : Option (List String)
deriving DecidableEq

/-- Python truthiness of `source.get("page_url")`: an absent key and the empty
string are both falsy. -/
def strTruthy : Option String → Bool
  | none => false
  | some s => !s.isEmpty

/-- Python truthiness of `answer.get("sources")`: an absent key and the empty
list are both falsy. -/
def listTruthy {α : Type} : Option (List α) → Bool
  | none => false
  | some [] => false
  | some (_ :: _) => true

/-- The response dict built by `chat_with_knowledge_base` on the success path:
question echoed, `sources_count = len(answer.get("sources", []))`,
`model = answer.get("model_used")`, and `source_urls` added only under
`if answer.get("sources"):`, holding the truthy `page_url` values. -/
def chatRespOf (question : String) (a : RagAnswer) : ChatResponse :=
  { question := question
    answer := a.answer
    context_used := a.context_used
    sources_count := (a.sources.getD []).length
    model := a.model_used
    source_urls :=
      if listTruthy a.sources then
        some ((a.sources.getD []).filterMap fun s =>
          if strTruthy s.page_url then s.page_url else none)
      else none }

/-- `POST /vector/chat`: delegates to `rag.answer_question` (the oracle
argument); an exception is caught and re-raised as HTTP 500 whose detail is
the exception's message. -/
def chat_with_knowledge_base (question : String)
    (ragAnswer : Except String RagAnswer) : Except (Nat × String) ChatResponse :=
  match ragAnswer with
  | .error e => .error (500, e)
  | .ok a => .ok (chatRespOf question a)

/-! ## Stats and health endpoints -/

/-- The stats dict exposed by the vector store; the health handler reads
`total_chunks` and `unique_pages` with `.get(_, 0)`, so both are optional. -/
structure VStats where
  total_chunks : Option Nat
  unique_pages : Option Nat
deriving DecidableEq

/-- `GET /vector/stats`: returns `db.get_stats()` unmodified; an exception is
surfaced as HTTP 500 with the exception's message. -/
def get_vector_db_stats (getStats : Except String VStats) :
    Except (Nat × String) VStats :=
  match getStats with
  | .error e => .error (500, e)
  | .ok stats => .ok stats

/-- The healthy payload of `GET /vector/health`. -/
structure HealthResponse where
  status : String
  vector_db : String
  embedding_model : String
  embedding_dimension : Nat
  google_ai_model : String
  total_chunks : Nat
  unique_pages : Nat
deriving DecidableEq

/-- `GET /vector/health`: calls `db.get_stats()`, then probes the embedding
path with `db.generate_embedding("test")` and reports the probe's
dimensionality; any exception in either step becomes HTTP 503 with detail
`"Service unavailable: " ++` the message. -/
def vector_health_check (getStats : Except String VStats)
    (generate_embedding : String → Except String (List Int))
    (embedding_model_name google_ai_model_name : String) :
    Except (Nat × String) HealthResponse :=
  match getStats with
  | .error e => .error (503, "Service unavailable: " ++ e)
  | .ok stats =>
    match generate_embedding "test" with
    | .error e => .error (503, "Service unavailable: " ++ e)
    | .ok test_embedding =>
      .ok { status := "healthy"
            vector_db := "connected"
            embedding_model := embedding_model_name
            embedding_dimension := test_embedding.length
            google_ai_model := google_ai_model_name
            total_chunks := stats.total_chunks.getD 0
            unique_pages := stats.unique_pages.getD 0 }

/-! ## Startup hook (`lifespan`) -/

/-- Observable outcome of the startup phase of `lifespan`: how many times
`ensure_vector_index` was invoked, what error (if any) was logged, and whether
the `yield` serving requests is reached. -/
structure StartupOutcome where
  ensure_calls : Nat
  logged_error : Option String
  serves_requests : Bool
deriving DecidableEq

/-- The `lifespan` startup: one `ensure_vector_index()` call inside
`try/except`; on failure the error is logged and startup still falls through
to `yield` (requests are served either way), with no retry. -/
def lifespan (ensure_vector_index : Except String Unit) : StartupOutcome :=
  match ensure_vector_index with
  | .ok _ =>
    { ensure_calls := 1, logged_error := none, serves_requests := true }
  | .error e =>
    { ensure_calls := 1
      logged_error := some ("Error initializing vector database: " ++ e)
      serves_requests := true }

/-! ## Sync endpoint (`sync_database`) -/

/-- `SyncRequest` pydantic model with its defaults. -/
structure SyncRequest where
  force_update : Bool := true
  page_limit : Option Nat := some 100
deriving DecidableEq

/-- The arguments one `background_tasks.add_task(_sync_database_background, …)`
call is scheduled with (the `db`/`client` handles are ambient singletons). -/
structure SyncTask where
  database_id : String
  force_update : Bool
  page_limit : Option Nat
deriving DecidableEq

/-- The acknowledgment dict returned by `POST /vector/sync`. -/
structure SyncResponse where
  status : String
  message : String
  force_update : Bool
deriving DecidableEq

/-- The background tasks scheduled by the sync endpoint: one per configured id
in `notion_database_ids`, each carrying the request's `force_update` and
`page_limit` unchanged. -/
def scheduledTasks (req : SyncRequest) (notion_database_ids : List String) :
    List SyncTask :=
  notion_database_ids.map fun database_id =>
    { database_id := database_id
      force_update := req.force_update
      page_limit := req.page_limit }

/-- `POST /vector/sync`: schedules the background tasks (the `add_tasks`
oracle stands for the framework's `add_task` calls, which sit inside the
handler's `try`) and returns the `started` acknowledgment immediately — no
page is processed by this handler. An exception becomes HTTP 500 with the
exception's message. -/
def sync_database (req : SyncRequest) (notion_database_ids : List String)
    (add_tasks : List SyncTask → Except String Unit) :
    Except (Nat × String) SyncResponse :=
  match add_tasks (scheduledTasks req notion_database_ids) with
  | .error e => .error (500, e)
  | .ok _ =>
    .ok { status := "started"
          message := "notion synced"
          force_update := req.force_update }

/-! ## Background sync task (`_sync_database_background`)

The task has two phases. Phase 1 paginates `client.databases.query` to build
`all_pages`; the Notion database is modelled as a list of pages and a cursor
as a position into it (Notion's opaque cursors are non-empty strings, so a
returned cursor is truthy; `none` models both "no cursor yet" and the item
being absent from the query params). Phase 2 iterates over `all_pages`,
fetching each page's child blocks (`notion.blocks.children.list` — outside
the per-page `try`), extracting their content, and storing the page; only the
`db.store_notion_page` call sits inside the per-page `try/except`. -/

/-- Python truthiness of the `page_limit` value (`if page_limit`): `None` and
`0` are falsy. -/
def plTruthy : Option Nat → Bool
  | some (_ + 1) => true
  | _ => false

/-- The `while` condition: `has_more and (page_limit is None or
pages_processed < page_limit)`. -/
def loopCond (page_limit : Option Nat) (has_more : Bool)
    (pages_processed : Nat) : Bool :=
  has_more &&
    (match page_limit with
     | none => true
     | some k => decide (pages_processed < k))

/-- `page_size = min(100, page_limit - pages_processed if page_limit else
100)`: the conditional expression yields `100` when `page_limit` is falsy
(`None` or `0`). -/
def pageSizeFor (page_limit : Option Nat) (pages_processed : Nat) : Nat :=
  min 100
    (match page_limit with
     | some (k + 1) => (k + 1) - pages_processed
     | _ => 100)

/-- The trailing `if page_limit and pages_processed >= page_limit: break`. -/
def breakCond (page_limit : Option Nat) (pages_processed : Nat) : Bool :=
  match page_limit with
  | some (k + 1) => decide (pages_processed ≥ k + 1)
  | _ => false

/-- One `client.databases.query` response: `results`, `has_more`,
`next_cursor`. -/
structure QueryResponse where
  results : List Page
  has_more : Bool
  next_cursor : Option Nat
deriving DecidableEq

/-- The Notion query oracle over a database holding the page list `db`: an
absent `start_cursor` starts at position 0, `results` is the next
`page_size`-sized slice, `has_more`/`next_cursor` signal whether pages
remain. -/
def databasesQuery (db : List Page) (start_cursor : Option Nat)
    (page_size : Nat) : QueryResponse :=
  let cur := start_cursor.getD 0
  let results := (db.drop cur).take page_size
  let newPos := cur + results.length
  { results := results
    has_more := decide (newPos < db.length)
    next_cursor := if newPos < db.length then some newPos else none }

/-- Observable outcome of the pagination phase: the accumulated `all_pages`,
the log of issued queries as (`pages_processed` at query time, `page_size`)
pairs, and the final `pages_processed` counter. -/
structure FetchOut where
  all_pages : List Page
  queries : List (Nat × Nat)
  pages_processed : Nat
deriving DecidableEq

/-- The pagination `while` loop, with fuel for the recursion (the caller
passes enough fuel that exhaustion is unreachable: each iteration either
fetches at least one page or clears `has_more`). -/
def syncFetchGo (db : List Page) (page_limit : Option Nat) :
    Nat → Bool → Option Nat → Nat → List Page → List (Nat × Nat) → FetchOut
  | 0, _, _, pages_processed, accPages, accQueries =>
    ⟨accPages, accQueries, pages_processed⟩
  | fuel + 1, has_more, next_cursor, pages_processed, accPages, accQueries =>
    if loopCond page_limit has_more pages_processed then
      let page_size := pageSizeFor page_limit pages_processed
      let resp := databasesQuery db next_cursor page_size
      let pages_processed' := pages_processed + resp.results.length
      let accPages' := accPages ++ resp.results
      let accQueries' := accQueries ++ [(pages_processed, page_size)]
      if breakCond page_limit pages_processed' then
        ⟨accPages', accQueries', pages_processed'⟩
      else
        syncFetchGo db page_limit fuel resp.has_more resp.next_cursor
          pages_processed' accPages' accQueries'
    else ⟨accPages, accQueries, pages_processed⟩

/-- Phase 1 of `_sync_database_background`: `all_pages = []`,
`has_more = True`, `next_cursor = None`, `pages_processed = 0`, then the
`while` loop. -/
def syncFetch (db : List Page) (page_limit : Option Nat) : FetchOut :=
  syncFetchGo db page_limit (db.length + 1) true none 0 [] []

/-- The dict returned by `db.store_notion_page`: its `status`, and
`chunks_stored` (read only on the `success` branch). -/
structure StoreResult where
  status : String
  chunks_stored : Nat
deriving DecidableEq

/-- The `sync_results` counter dict. -/
structure SyncResults where
  success : Nat := 0
  skipped : Nat := 0
  errors : Nat := 0
  total_chunks : Nat := 0
deriving DecidableEq

/-- Observable outcome of phase 2: the final counters, the log of
`store_notion_page` invocations as (page id, `force_update`) pairs, and
`some e` when an uncaught exception `e` escaped the page loop into the
outer `try/except` (which logs it and ends the run). -/
structure RunOut where
  results : SyncResults
  storeCalls : List (String × Bool)
  aborted : Option String
deriving DecidableEq

/-- The classification of one store result into the counters:
`success` adds to `success` and `total_chunks`, `skipped` adds to `skipped`,
any other status changes nothing. -/
def applyStoreResult (r : SyncResults) (res : StoreResult) : SyncResults :=
  if res.status = "success" then
    { r with
      success := r.success + 1
      total_chunks := r.total_chunks + res.chunks_stored }
  else if res.status = "skipped" then
    { r with skipped := r.skipped + 1 }
  else r

/-- Phase 2 of `_sync_database_background`, the `for page in all_pages` loop.
`blocks` models `notion.blocks.children.list(block_id=page["id"])` returning
the page's block list; it is called OUTSIDE the per-page `try`, so its
exception aborts the loop (propagating to the outer handler). `extract`
models `notion_utils.extract_block_content`. `store` models
`db.store_notion_page(page_id, content, database_id, force_update)` and is
the only call inside the per-page `try/except`: its exception increments
`errors` and the loop continues. -/
def syncPages (blocks : String → Except String (List String))
    (extract : String → String)
    (store : String → List String → String → Bool → Except String StoreResult)
    (database_id : String) (force_update : Bool) :
    List Page → SyncResults → List (String × Bool) → RunOut
  | [], r, calls => ⟨r, calls, none⟩
  | page :: rest, r, calls =>
    match blocks page.id with
    | .error e => ⟨r, calls, some e⟩
    | .ok bs =>
      let pageContent := bs.map extract
      let calls' := calls ++ [(page.id, force_update)]
      match store page.id pageContent database_id force_update with
      | .error _ =>
        syncPages blocks extract store database_id force_update rest
          { r with errors := r.errors + 1 } calls'
      | .ok result =>
        syncPages blocks extract store database_id force_update rest
          (applyStoreResult r result) calls'

/-- The whole background task for one scheduled `SyncTask`: fetch the pages
(phase 1), then process them (phase 2). -/
def sync_database_background (db : List Page)
    (blocks : String → Except String (List String))
    (extract : String → String)
    (store : String → List String → String → Bool → Except String StoreResult)
    (t : SyncTask) : RunOut :=
  syncPages blocks extract store t.database_id t.force_update
    (syncFetch db t.page_limit).all_pages {} []

/-- The outcome of the store attempt for one page, as the per-page code sees
it: a block-fetch failure propagates, otherwise the store oracle's answer. -/
def pageStoreOutcome (blocks : String → Except String (List String))
    (extract : String → String)
    (store : String → List String → String → Bool → Except String StoreResult)
    (database_id : String) (force_update : Bool) (page : Page) :
    Except String StoreResult :=
  match blocks page.id with
  | .error e => .error e
  | .ok bs => store page.id (bs.map extract) database_id force_update

/-- `true` when the page's store attempt returns a result with the given
status. -/
def pageStatusIs (blocks : String → Except String (List String))
    (extract : String → String)
    (store : String → List String → String → Bool → Except String StoreResult)
    (database_id : String) (force_update : Bool) (page : Page)
    (st : String) : Bool :=
  match pageStoreOutcome blocks extract store database_id force_update page with
  | .ok result => result.status == st
  | .error _ => false

/-! ## Concrete oracles used as test inputs -/

/-- A block-listing oracle that always succeeds with an empty block list. -/
def blocksOkNil : String → Except String (List String) :=
  fun _ => Except.ok []

/-- A block-listing oracle that raises on page `p1` and succeeds elsewhere. -/
def blocksFailP1 : String → Except String (List String) :=
  fun pid => if pid = "p1" then Except.error "boom" else Except.ok []

/-- A store oracle that always raises. -/
def storeFail : String → List String → String → Bool → Except String StoreResult :=
  fun _ _ _ _ => Except.error "db down"

/-- A store oracle that always succeeds, storing one chunk. -/
def storeOkSuccess : String → List String → String → Bool → Except String StoreResult :=
  fun _ _ _ _ => Except.ok ⟨"success", 1⟩

/-- A store oracle that always reports the page as skipped. -/
def storeOkSkipped : String → List String → String → Bool → Except String StoreResult :=
  fun _ _ _ _ => Except.ok ⟨"skipped", 0⟩

/-- A two-page batch. -/
def pagesTwo : List Page := [⟨"p1"⟩, ⟨"p2"⟩]

/-- A five-page Notion database. -/
def dbFive : List Page := [⟨"a"⟩, ⟨"b"⟩, ⟨"c"⟩, ⟨"d"⟩, ⟨"e"⟩]

/-! ## Helper lemmas about the page-processing loop -/

/-- `applyStoreResult` never touches the error counter. -/
theorem applyStoreResult_errors (r : SyncResults) (res : StoreResult) :
    (applyStoreResult r res).errors = r.errors := by
  unfold applyStoreResult
  split_ifs <;> rfl

/-- `applyStoreResult` adds one success exactly on status `success`. -/
theorem applyStoreResult_success (r : SyncResults) (res : StoreResult) :
    (applyStoreResult r res).success
      = r.success + (if res.status = "success" then 1 else 0) := by
  unfold applyStoreResult
  split_ifs <;> rfl

/-- `applyStoreResult` adds one skipped exactly on status `skipped`. -/
theorem applyStoreResult_skipped (r : SyncResults) (res : StoreResult) :
    (applyStoreResult r res).skipped
      = r.skipped + (if res.status = "skipped" then 1 else 0) := by
  unfold applyStoreResult
  split_ifs with h1 h2 h3
  · exact absurd (h1.symm.trans h2) (by decide)
  · rfl
  · rfl
  · rfl

/-- `applyStoreResult` adds chunks exactly on status `success`. -/
theorem applyStoreResult_chunks (r : SyncResults) (res : StoreResult) :
    (applyStoreResult r res).total_chunks
      = r.total_chunks + (if res.status = "success" then res.chunks_stored else 0) := by
  unfold applyStoreResult
  split_ifs <;> rfl

/-- Characterization of a run of the page loop in which no block-listing call
raises: the run completes, every page's store call is made in order, and the
counters count the store outcomes. -/
theorem syncPages_ok_run (blocks : String → Except String (List String))
    (extract : String → String)
    (store : String → List String → String → Bool → Except String StoreResult)
    (dbid : String) (fu : Bool) :
    ∀ (pages : List Page) (r : SyncResults) (calls : List (String × Bool)),
      (∀ p ∈ pages, exceptErr (blocks p.id) = false) →
      (syncPages blocks extract store dbid fu pages r calls).aborted = none
      ∧ (syncPages blocks extract store dbid fu pages r calls).storeCalls
          = calls ++ pages.map (fun p => (p.id, fu))
      ∧ (syncPages blocks extract store dbid fu pages r calls).results.errors
          = r.errors + pages.countP
              (fun p => exceptErr (pageStoreOutcome blocks extract store dbid fu p))
      ∧ (syncPages blocks extract store dbid fu pages r calls).results.success
          = r.success + pages.countP
              (fun p => pageStatusIs blocks extract store dbid fu p "success")
      ∧ (syncPages blocks extract store dbid fu pages r calls).results.skipped
          = r.skipped + pages.countP
              (fun p => pageStatusIs blocks extract store dbid fu p "skipped") := by
  intro pages
  induction pages with
  | nil => intro r calls _; simp [syncPages]
  | cons page rest ih =>
    intro r calls h
    have hb : exceptErr (blocks page.id) = false := h page (List.mem_cons_self _ _)
    have ht : ∀ p ∈ rest, exceptErr (blocks p.id) = false :=
      fun p hp => h p (List.mem_cons_of_mem _ hp)
    cases hbk : blocks page.id with
    | error e => rw [hbk] at hb; exact absurd hb (by simp [exceptErr])
    | ok bs =>
      have houtc : pageStoreOutcome blocks extract store dbid fu page
          = store page.id (bs.map extract) dbid fu := by
        simp only [pageStoreOutcome, hbk]
      cases hst : store page.id (bs.map extract) dbid fu with
      | error e2 =>
        have hrun : syncPages blocks extract store dbid fu (page :: rest) r calls
            = syncPages blocks extract store dbid fu rest
                { r with errors := r.errors + 1 } (calls ++ [(page.id, fu)]) := by
          simp only [syncPages, hbk, hst]
        obtain ⟨ih1, ih2, ih3, ih4, ih5⟩ :=
          ih { r with errors := r.errors + 1 } (calls ++ [(page.id, fu)]) ht
        rw [hrun]
        refine ⟨ih1, ?_, ?_, ?_, ?_⟩
        · rw [ih2]
          simp
        · rw [ih3]
          simp only [List.countP_cons, houtc, hst]
          simp [exceptErr]
          omega
        · rw [ih4]
          simp only [List.countP_cons, pageStatusIs, houtc, hst]
          simp
        · rw [ih5]
          simp only [List.countP_cons, pageStatusIs, houtc, hst]
          simp
      | ok res =>
        have hrun : syncPages blocks extract store dbid fu (page :: rest) r calls
            = syncPages blocks extract store dbid fu rest
                (applyStoreResult r res) (calls ++ [(page.id, fu)]) := by
          simp only [syncPages, hbk, hst]
        obtain ⟨ih1, ih2, ih3, ih4, ih5⟩ :=
          ih (applyStoreResult r res) (calls ++ [(page.id, fu)]) ht
        rw [hrun]
        refine ⟨ih1, ?_, ?_, ?_, ?_⟩
        · rw [ih2]
          simp
        · rw [ih3, applyStoreResult_errors]
          simp only [List.countP_cons, houtc, hst]
          simp [exceptErr]
        · rw [ih4, applyStoreResult_success]
          simp only [List.countP_cons, pageStatusIs, houtc, hst]
          by_cases hsx : res.status = "success"
          · simp [hsx]
            omega
          · simp [hsx]
        · rw [ih5, applyStoreResult_skipped]
          simp only [List.countP_cons, pageStatusIs, houtc, hst]
          by_cases hsx : res.status = "skipped"
          · simp [hsx]
            omega
          · simp [hsx]

/-- Every store call the page loop performs carries the `force_update` it was
given (or was already in the accumulator). -/
theorem syncPages_calls_force (blocks : String → Except String (List String))
    (extract : String → String)
    (store : String → List String → String → Bool → Except String StoreResult)
    (dbid : String) (fu : Bool) :
    ∀ (pages : List Page) (r : SyncResults) (calls : List (String × Bool))
      (c : String × Bool),
      c ∈ (syncPages blocks extract store dbid fu pages r calls).storeCalls →
      c ∈ calls ∨ c.2 = fu := by
  intro pages
  induction pages with
  | nil =>
    intro r calls c hc
    exact Or.inl hc
  | cons page rest ih =>
    intro r calls c hc
    cases hbk : blocks page.id with
    | error e =>
      rw [show syncPages blocks extract store dbid fu (page :: rest) r calls
          = ⟨r, calls, some e⟩ by simp only [syncPages, hbk]] at hc
      exact Or.inl hc
    | ok bs =>
      cases hst : store page.id (bs.map extract) dbid fu with
      | error e2 =>
        rw [show syncPages blocks extract store dbid fu (page :: rest) r calls
            = syncPages blocks extract store dbid fu rest
                { r with errors := r.errors + 1 } (calls ++ [(page.id, fu)])
            by simp only [syncPages, hbk, hst]] at hc
        rcases ih _ _ c hc with hin | hfu
        · rcases List.mem_append.mp hin with hin' | hone
          · exact Or.inl hin'
          · right
            rw [List.mem_singleton.mp hone]
        · exact Or.inr hfu
      | ok res =>
        rw [show syncPages blocks extract store dbid fu (page :: rest) r calls
            = syncPages blocks extract store dbid fu rest
                (applyStoreResult r res) (calls ++ [(page.id, fu)])
            by simp only [syncPages, hbk, hst]] at hc
        rcases ih _ _ c hc with hin | hfu
        · rcases List.mem_append.mp hin with hin' | hone
          · exact Or.inl hin'
          · right
            rw [List.mem_singleton.mp hone]
        · exact Or.inr hfu

/-- Counter-sum bound for any run of the page loop (aborted or not): the
counters grow by at most one per store call made. -/
theorem syncPages_sum_bound (blocks : String → Except String (List String))
    (extract : String → String)
    (store : String → List String → String → Bool → Except String StoreResult)
    (dbid : String) (fu : Bool) :
    ∀ (pages : List Page) (r : SyncResults) (calls : List (String × Bool)),
      ((syncPages blocks extract store dbid fu pages r calls).results.success
        + (syncPages blocks extract store dbid fu pages r calls).results.skipped
        + (syncPages blocks extract store dbid fu pages r calls).results.errors)
        + calls.length
      ≤ (r.success + r.skipped + r.errors)
        + (syncPages blocks extract store dbid fu pages r calls).storeCalls.length
      ∧ (syncPages blocks extract store dbid fu pages r calls).storeCalls.length
        ≤ calls.length + pages.length := by
  intro pages
  induction pages with
  | nil =>
    intro r calls
    simp [syncPages]
  | cons page rest ih =>
    intro r calls
    cases hbk : blocks page.id with
    | error e =>
      rw [show syncPages blocks extract store dbid fu (page :: rest) r calls
          = ⟨r, calls, some e⟩ by simp only [syncPages, hbk]]
      simp
    | ok bs =>
      cases hst : store page.id (bs.map extract) dbid fu with
      | error e2 =>
        rw [show syncPages blocks extract store dbid fu (page :: rest) r calls
            = syncPages blocks extract store dbid fu rest
                { r with errors := r.errors + 1 } (calls ++ [(page.id, fu)])
            by simp only [syncPages, hbk, hst]]
        have := ih { r with errors := r.errors + 1 } (calls ++ [(page.id, fu)])
        simp at this
        simp
        omega
      | ok res =>
        rw [show syncPages blocks extract store dbid fu (page :: rest) r calls
            = syncPages blocks extract store dbid fu rest
                (applyStoreResult r res) (calls ++ [(page.id, fu)])
            by simp only [syncPages, hbk, hst]]
        have hib := ih (applyStoreResult r res) (calls ++ [(page.id, fu)])
        have hs := applyStoreResult_success r res
        have hk := applyStoreResult_skipped r res
        have he := applyStoreResult_errors r res
        simp at hib
        simp
        by_cases hsx : res.status = "success" <;>
          by_cases hkx : res.status = "skipped" <;>
            simp [hsx, hkx] at hs hk <;> omega

/-- If no page's store attempt yields status `success`, the chunk counter
never moves (holds for aborted runs too). -/
theorem syncPages_chunks_const (blocks : String → Except String (List String))
    (extract : String → String)
    (store : String → List String → String → Bool → Except String StoreResult)
    (dbid : String) (fu : Bool) :
    ∀ (pages : List Page) (r : SyncResults) (calls : List (String × Bool)),
      (∀ p ∈ pages, pageStatusIs blocks extract store dbid fu p "success" = false) →
      (syncPages blocks extract store dbid fu pages r calls).results.total_chunks
        = r.total_chunks := by
  intro pages
  induction pages with
  | nil =>
    intro r calls _
    rfl
  | cons page rest ih =>
    intro r calls h
    have hhd : pageStatusIs blocks extract store dbid fu page "success" = false :=
      h page (List.mem_cons_self _ _)
    have ht : ∀ p ∈ rest, pageStatusIs blocks extract store dbid fu p "success" = false :=
      fun p hp => h p (List.mem_cons_of_mem _ hp)
    cases hbk : blocks page.id with
    | error e =>
      rw [show syncPages blocks extract store dbid fu (page :: rest) r calls
          = ⟨r, calls, some e⟩ by simp only [syncPages, hbk]]
    | ok bs =>
      cases hst : store page.id (bs.map extract) dbid fu with
      | error e2 =>
        rw [show syncPages blocks extract store dbid fu (page :: rest) r calls
            = syncPages blocks extract store dbid fu rest
                { r with errors := r.errors + 1 } (calls ++ [(page.id, fu)])
            by simp only [syncPages, hbk, hst]]
        exact ih _ _ ht
      | ok res =>
        have hsx : res.status ≠ "success" := by
          simp only [pageStatusIs, pageStoreOutcome, hbk, hst] at hhd
          simpa using hhd
        rw [show syncPages blocks extract store dbid fu (page :: rest) r calls
            = syncPages blocks extract store dbid fu rest
                (applyStoreResult r res) (calls ++ [(page.id, fu)])
            by simp only [syncPages, hbk, hst]]
        rw [ih _ _ ht, applyStoreResult_chunks, if_neg hsx]
        omega

/-! ## Claim theorems: request handlers -/

/-- A RAG result whose single source carries an empty `page_url`. -/
def ragAnswerEmptyUrl : RagAnswer :=
  { answer := "a", context_used := false
    sources := some [{ page_url := some "" }], model_used := none }

/-- Claim C3 fails as stated: for a RAG result whose (non-empty) sources list
contains no non-empty `page_url`, the chat response still carries the
`source_urls` key (with value `[]`) instead of omitting it, because the code
only tests `if answer.get("sources"):`. -/
theorem claim_C3_counterexample :
    (ragAnswerEmptyUrl.sources.getD []).all (fun s => !(strTruthy s.page_url))
      = true
    ∧ chat_with_knowledge_base "q" (Except.ok ragAnswerEmptyUrl)
        = Except.ok (chatRespOf "q" ragAnswerEmptyUrl)
    ∧ (chatRespOf "q" ragAnswerEmptyUrl).source_urls = some []
    ∧ ¬ (chatRespOf "q" ragAnswerEmptyUrl).source_urls = none := by
  refine ⟨rfl, rfl, rfl, by decide⟩

/-- Claim C3 (amended): the chat response omits `source_urls` exactly when the
RAG result's sources list is absent or empty; when present, it contains
exactly the non-empty `page_url` values of the sources (so it may be the
empty list even though the key is present). -/
theorem claim_C3 (q : String) (a : RagAnswer) :
    ((chatRespOf q a).source_urls = none ↔ listTruthy a.sources = false)
    ∧ (∀ us, (chatRespOf q a).source_urls = some us →
        ∀ u, u ∈ us ↔ ∃ s ∈ a.sources.getD [], s.page_url = some u ∧ u ≠ "") := by
  have hf : ∀ (s : Source) (u : String),
      ((if strTruthy s.page_url then s.page_url else none) = some u)
        ↔ (s.page_url = some u ∧ u ≠ "") := by
    intro s u
    constructor
    · intro h
      by_cases ht : strTruthy s.page_url = true
      · rw [if_pos ht] at h
        refine ⟨h, ?_⟩
        rw [h] at ht
        intro hu
        subst hu
        exact absurd ht (by decide)
      · rw [if_neg ht] at h
        exact Option.noConfusion h
    · rintro ⟨h1, h2⟩
      have ht : strTruthy s.page_url = true := by
        rw [h1]
        show (!u.isEmpty) = true
        cases hie : u.isEmpty with
        | false => rfl
        | true => exact absurd ((String.isEmpty_iff u).mp hie) h2
      rw [if_pos ht]
      exact h1
  constructor
  · cases h : listTruthy a.sources <;> simp [chatRespOf, h]
  · intro us hus u
    cases h : listTruthy a.sources with
    | false => simp [chatRespOf, h] at hus
    | true =>
      simp only [chatRespOf, h, if_true, Option.some.injEq] at hus
      subst hus
      simp only [List.mem_filterMap]
      constructor
      · rintro ⟨s, hs, hfs⟩
        exact ⟨s, hs, (hf s u).mp hfs⟩
      · rintro ⟨s, hs, hsu⟩
        exact ⟨s, hs, (hf s u).mpr hsu⟩

/-- Witness for C3: a source with URL `"u"`: `"u"` is a member of the emitted
`source_urls` list iff some source carries it non-empty. -/
theorem claim_C3_witness :
    "u" ∈ ["u"]
      ↔ ∃ s ∈ (RagAnswer.mk "a" false (some [Source.mk (some "u")]) none).sources.getD [],
          s.page_url = some "u" ∧ "u" ≠ "" :=
  (claim_C3 "q" (RagAnswer.mk "a" false (some [Source.mk (some "u")]) none)).2
    ["u"] rfl "u"

/-- Claim C5: the health endpoint returns HTTP 503 whenever the stats call or
the `"test"` embedding probe raises, and otherwise returns the healthy
payload whose `embedding_dimension` is the probe embedding's length. -/
theorem claim_C5 (gs : Except String VStats)
    (ge : String → Except String (List Int)) (mn gm : String) :
    (exceptErr gs = true ∨ exceptErr (ge "test") = true →
      ∃ msg, vector_health_check gs ge mn gm = Except.error (503, msg))
    ∧ (∀ s emb, gs = Except.ok s → ge "test" = Except.ok emb →
        vector_health_check gs ge mn gm
          = Except.ok
              { status := "healthy", vector_db := "connected"
                embedding_model := mn, embedding_dimension := emb.length
                google_ai_model := gm, total_chunks := s.total_chunks.getD 0
                unique_pages := s.unique_pages.getD 0 }) := by
  constructor
  · intro h
    cases hgs : gs with
    | error e => exact ⟨"Service unavailable: " ++ e, by simp [vector_health_check]⟩
    | ok s =>
      cases hge : ge "test" with
      | error e =>
        exact ⟨"Service unavailable: " ++ e, by simp [vector_health_check, hge]⟩
      | ok emb =>
        subst hgs
        rcases h with h | h
        · simp [exceptErr] at h
        · rw [hge] at h
          simp [exceptErr] at h
  · intro s emb hs he
    subst hs
    simp [vector_health_check, he]

/-- Witness for C5: a raising stats call gives a 503, healthy collaborators
give the healthy payload with the probe's dimension 3. -/
theorem claim_C5_witness :
    (∃ msg, vector_health_check (Except.error "down") (fun _ => Except.ok [1])
        "m" "g" = Except.error (503, msg))
    ∧ vector_health_check (Except.ok ⟨some 2, some 1⟩)
        (fun _ => Except.ok [1, 2, 3]) "m" "g"
        = Except.ok ⟨"healthy", "connected", "m", 3, "g", 2, 1⟩ :=
  ⟨(claim_C5 (Except.error "down") (fun _ => Except.ok [1]) "m" "g").1
      (Or.inl rfl),
   (claim_C5 (Except.ok ⟨some 2, some 1⟩) (fun _ => Except.ok [1, 2, 3])
      "m" "g").2 ⟨some 2, some 1⟩ [1, 2, 3] rfl rfl⟩

/-- Claim C6: for the stats, sync-trigger and chat endpoints, an exception in
the delegated work is caught and surfaced as HTTP 500 whose detail is the
exception's message. -/
theorem claim_C6 (e q : String) (req : SyncRequest) (ids : List String) :
    get_vector_db_stats (Except.error e) = Except.error (500, e)
    ∧ sync_database req ids (fun _ => Except.error e) = Except.error (500, e)
    ∧ chat_with_knowledge_base q (Except.error e) = Except.error (500, e) :=
  ⟨rfl, rfl, rfl⟩

/-- Claim C7: at startup the index-ensure operation is called exactly once;
a failure is only logged (with the `Error initializing vector database:`
message) and requests are served regardless, with no retry. -/
theorem claim_C7 (ensure : Except String Unit) (e : String) :
    (lifespan ensure).ensure_calls = 1
    ∧ (lifespan ensure).serves_requests = true
    ∧ (lifespan (Except.error e)).logged_error
        = some ("Error initializing vector database: " ++ e)
    ∧ (lifespan (Except.ok ())).logged_error = none := by
  refine ⟨?_, ?_, rfl, rfl⟩ <;> cases ensure <;> rfl

/-- Claim C9: with an empty configured database-id list, the sync endpoint
schedules no background task and still returns the same `started`
acknowledgment as with configured ids. -/
theorem claim_C9 (req : SyncRequest) (ids : List String)
    (add_tasks : List SyncTask → Except String Unit)
    (h0 : add_tasks [] = Except.ok ())
    (h1 : add_tasks (scheduledTasks req ids) = Except.ok ()) :
    scheduledTasks req [] = []
    ∧ sync_database req [] add_tasks
        = Except.ok ⟨"started", "notion synced", req.force_update⟩
    ∧ sync_database req [] add_tasks = sync_database req ids add_tasks := by
  refine ⟨rfl, ?_, ?_⟩
  · show (match add_tasks (scheduledTasks req []) with
      | .error e => Except.error (500, e)
      | .ok _ => Except.ok _) = _
    rw [show scheduledTasks req [] = [] from rfl, h0]
  · show (match add_tasks (scheduledTasks req []) with
      | .error e => Except.error (500, e)
      | .ok _ => (Except.ok ⟨"started", "notion synced", req.force_update⟩ :
          Except (Nat × String) SyncResponse)) = _
    rw [show scheduledTasks req [] = [] from rfl, h0]
    show _ = (match add_tasks (scheduledTasks req ids) with
      | .error e => Except.error (500, e)
      | .ok _ => (Except.ok ⟨"started", "notion synced", req.force_update⟩ :
          Except (Nat × String) SyncResponse))
    rw [h1]

/-- Witness for C9: the default request against no configured databases. -/
theorem claim_C9_witness :
    scheduledTasks {} [] = []
    ∧ sync_database {} [] (fun _ => Except.ok ())
        = Except.ok ⟨"started", "notion synced", true⟩
    ∧ sync_database {} [] (fun _ => Except.ok ())
        = sync_database {} ["db1"] (fun _ => Except.ok ()) :=
  claim_C9 {} ["db1"] (fun _ => Except.ok ()) rfl rfl

/-- Claim C10: a successful chat response echoes the question verbatim,
`sources_count` is the length of the sources list (0 when absent), and a
missing `model_used` key yields `model = none` rather than a failure. -/
theorem claim_C10 (q : String) (a : RagAnswer) :
    chat_with_knowledge_base q (Except.ok a) = Except.ok (chatRespOf q a)
    ∧ (chatRespOf q a).question = q
    ∧ (chatRespOf q a).sources_count = (a.sources.getD []).length
    ∧ (a.sources = none → (chatRespOf q a).sources_count = 0)
    ∧ (a.model_used = none → (chatRespOf q a).model = none) := by
  refine ⟨rfl, rfl, rfl, ?_, ?_⟩ <;> intro h <;> simp [chatRespOf, h]

/-- Witness for C10: a RAG result with no sources and no model key. -/
theorem claim_C10_witness :
    (chatRespOf "q" (RagAnswer.mk "ans" true none none)).sources_count = 0
    ∧ (chatRespOf "q" (RagAnswer.mk "ans" true none none)).model = none :=
  ⟨(claim_C10 "q" (RagAnswer.mk "ans" true none none)).2.2.2.1 rfl,
   (claim_C10 "q" (RagAnswer.mk "ans" true none none)).2.2.2.2 rfl⟩

/-! ## Claim theorems: background sync page loop -/

/-- Claim C1 fails as stated: when fetching page `p1`'s child blocks raises,
the error counter is NOT incremented and processing does NOT continue with
`p2` — the whole batch aborts (the block-listing call sits outside the
per-page `try/except`). -/
theorem claim_C1_counterexample :
    syncPages blocksFailP1 id storeOkSuccess "db" true pagesTwo {} []
      = ⟨{}, [], some "boom"⟩
    ∧ ¬ ((syncPages blocksFailP1 id storeOkSuccess "db" true pagesTwo
            {} []).results.errors = 1
        ∧ (syncPages blocksFailP1 id storeOkSuccess "db" true pagesTwo
            {} []).aborted = none) := by
  decide

/-- Claim C1 (amended): a failure of the per-page STORE call is logged,
increments only the error counter, and processing continues with the next
page (part 1: under block-listing that never raises, the run completes,
every page's store call is made, and the counters count the store
outcomes); but a failure while fetching a page's CHILD BLOCKS is not caught
per page: it aborts the batch at that page, without touching the counters
(part 2). -/
theorem claim_C1 (blocks : String → Except String (List String))
    (extract : String → String)
    (store : String → List String → String → Bool → Except String StoreResult)
    (dbid : String) (fu : Bool) (pages : List Page) :
    ((∀ p ∈ pages, exceptErr (blocks p.id) = false) →
      (syncPages blocks extract store dbid fu pages {} []).aborted = none
      ∧ (syncPages blocks extract store dbid fu pages {} []).storeCalls
          = pages.map (fun p => (p.id, fu))
      ∧ (syncPages blocks extract store dbid fu pages {} []).results.errors
          = pages.countP
              (fun p => exceptErr (pageStoreOutcome blocks extract store dbid fu p))
      ∧ (syncPages blocks extract store dbid fu pages {} []).results.success
          = pages.countP
              (fun p => pageStatusIs blocks extract store dbid fu p "success")
      ∧ (syncPages blocks extract store dbid fu pages {} []).results.skipped
          = pages.countP
              (fun p => pageStatusIs blocks extract store dbid fu p "skipped"))
    ∧ (∀ (page : Page) (rest : List Page) (r : SyncResults)
        (calls : List (String × Bool)) (e : String),
        blocks page.id = Except.error e →
        syncPages blocks extract store dbid fu (page :: rest) r calls
          = ⟨r, calls, some e⟩) := by
  constructor
  · intro h
    have := syncPages_ok_run blocks extract store dbid fu pages {} [] h
    simpa using this
  · intro page rest r calls e hbk
    simp only [syncPages, hbk]

/-- Witness for C1: block listing healthy and the store always raising — the
two-page batch completes with both store calls made and both failures
counted; block listing failing on the first page — the batch aborts. -/
theorem claim_C1_witness :
    ((syncPages blocksOkNil id storeFail "db" true pagesTwo {} []).aborted = none
      ∧ (syncPages blocksOkNil id storeFail "db" true pagesTwo {} []).storeCalls
          = pagesTwo.map (fun p => (p.id, true))
      ∧ (syncPages blocksOkNil id storeFail "db" true pagesTwo {} []).results.errors
          = pagesTwo.countP
              (fun p => exceptErr (pageStoreOutcome blocksOkNil id storeFail "db" true p))
      ∧ (syncPages blocksOkNil id storeFail "db" true pagesTwo {} []).results.success
          = pagesTwo.countP
              (fun p => pageStatusIs blocksOkNil id storeFail "db" true p "success")
      ∧ (syncPages blocksOkNil id storeFail "db" true pagesTwo {} []).results.skipped
          = pagesTwo.countP
              (fun p => pageStatusIs blocksOkNil id storeFail "db" true p "skipped"))
    ∧ syncPages blocksFailP1 id storeOkSuccess "db" true pagesTwo {} []
        = ⟨{}, [], some "boom"⟩ :=
  ⟨(claim_C1 blocksOkNil id storeFail "db" true pagesTwo).1 (by decide),
   (claim_C1 blocksFailP1 id storeOkSuccess "db" true pagesTwo).2
     ⟨"p1"⟩ [⟨"p2"⟩] {} [] "boom" rfl⟩

/-- Claim C8: each page whose store call is made moves the success, skipped
and error counters by at most one in total (a result with an unrecognized
status moves none of them), so their sum never exceeds the number of store
calls, which never exceeds the batch size; and `total_chunks` moves only on
status `success`. -/
theorem claim_C8 (blocks : String → Except String (List String))
    (extract : String → String)
    (store : String → List String → String → Bool → Except String StoreResult)
    (dbid : String) (fu : Bool) (pages : List Page) :
    ((syncPages blocks extract store dbid fu pages {} []).results.success
      + (syncPages blocks extract store dbid fu pages {} []).results.skipped
      + (syncPages blocks extract store dbid fu pages {} []).results.errors
      ≤ (syncPages blocks extract store dbid fu pages {} []).storeCalls.length)
    ∧ (syncPages blocks extract store dbid fu pages {} []).storeCalls.length
        ≤ pages.length
    ∧ (∀ (r : SyncResults) (res : StoreResult),
        res.status ≠ "success" → res.status ≠ "skipped" →
        applyStoreResult r res = r)
    ∧ (∀ (r : SyncResults) (res : StoreResult),
        res.status ≠ "success" →
        (applyStoreResult r res).total_chunks = r.total_chunks)
    ∧ ((∀ p ∈ pages, pageStatusIs blocks extract store dbid fu p "success" = false) →
        (syncPages blocks extract store dbid fu pages {} []).results.total_chunks
          = 0) := by
  obtain ⟨h1, h2⟩ := syncPages_sum_bound blocks extract store dbid fu pages {} []
  refine ⟨?_, ?_, ?_, ?_, ?_⟩
  · simpa using h1
  · simpa using h2
  · intro r res hs hk
    unfold applyStoreResult
    rw [if_neg hs, if_neg hk]
  · intro r res hs
    rw [applyStoreResult_chunks, if_neg hs]
    omega
  · intro h
    simpa using syncPages_chunks_const blocks extract store dbid fu pages {} [] h

/-- Witness for C8: a two-page batch whose store always reports `skipped`,
plus `applyStoreResult` at an unrecognized status. -/
theorem claim_C8_witness :
    ((syncPages blocksOkNil id storeOkSkipped "db" true pagesTwo {} []).results.success
      + (syncPages blocksOkNil id storeOkSkipped "db" true pagesTwo {} []).results.skipped
      + (syncPages blocksOkNil id storeOkSkipped "db" true pagesTwo {} []).results.errors
      ≤ (syncPages blocksOkNil id storeOkSkipped "db" true pagesTwo {} []).storeCalls.length)
    ∧ applyStoreResult {} ⟨"noop", 5⟩ = {}
    ∧ (applyStoreResult {} ⟨"skipped", 5⟩).total_chunks
        = ({} : SyncResults).total_chunks
    ∧ (syncPages blocksOkNil id storeOkSkipped "db" true pagesTwo {} []).results.total_chunks
        = 0 :=
  ⟨(claim_C8 blocksOkNil id storeOkSkipped "db" true pagesTwo).1,
   (claim_C8 blocksOkNil id storeOkSkipped "db" true pagesTwo).2.2.1
     {} ⟨"noop", 5⟩ (by decide) (by decide),
   (claim_C8 blocksOkNil id storeOkSkipped "db" true pagesTwo).2.2.2.1
     {} ⟨"skipped", 5⟩ (by decide),
   (claim_C8 blocksOkNil id storeOkSkipped "db" true pagesTwo).2.2.2.2 (by decide)⟩

/-- Claim C4: the sync endpoint returns the `started` acknowledgment echoing
the request's `force_update` without performing any store call, and every
store call later made by a scheduled background task carries the request's
`force_update` unchanged. -/
theorem claim_C4 (req : SyncRequest) (ids : List String)
    (add_tasks : List SyncTask → Except String Unit)
    (blocks : String → Except String (List String))
    (extract : String → String)
    (store : String → List String → String → Bool → Except String StoreResult)
    (db : List Page)
    (h : add_tasks (scheduledTasks req ids) = Except.ok ()) :
    sync_database req ids add_tasks
      = Except.ok ⟨"started", "notion synced", req.force_update⟩
    ∧ ∀ t ∈ scheduledTasks req ids,
        t.force_update = req.force_update
        ∧ ∀ c ∈ (sync_database_background db blocks extract store t).storeCalls,
            c.2 = req.force_update := by
  constructor
  · show (match add_tasks (scheduledTasks req ids) with
      | .error e => Except.error (500, e)
      | .ok _ => (Except.ok ⟨"started", "notion synced", req.force_update⟩ :
          Except (Nat × String) SyncResponse)) = _
    rw [h]
  · intro t ht
    have htf : t.force_update = req.force_update := by
      obtain ⟨i, _, rfl⟩ := List.mem_map.mp ht
      rfl
    refine ⟨htf, ?_⟩
    intro c hc
    simp only [sync_database_background] at hc
    rcases syncPages_calls_force blocks extract store t.database_id t.force_update
        (syncFetch db t.page_limit).all_pages {} [] c hc with hin | hfu
    · exact absurd hin (List.not_mem_nil c)
    · rw [hfu, htf]

/-- Witness for C4: a `force_update = false` request for one database: the
acknowledgment echoes `false` and the background task's store call on page
`p1` carries `false`. -/
theorem claim_C4_witness :
    sync_database (SyncRequest.mk false (some 5)) ["db1"] (fun _ => Except.ok ())
      = Except.ok ⟨"started", "notion synced", false⟩
    ∧ (SyncTask.mk "db1" false (some 5)).force_update = false
    ∧ ("p1", false).2 = false := by
  have h := claim_C4 (SyncRequest.mk false (some 5)) ["db1"] (fun _ => Except.ok ())
    blocksOkNil id storeOkSuccess [⟨"p1"⟩] rfl
  exact ⟨h.1, (h.2 ⟨"db1", false, some 5⟩ (by decide)).1,
    (h.2 ⟨"db1", false, some 5⟩ (by decide)).2 ("p1", false) (by decide)⟩

/-! ## Claim theorems: pagination loop -/

/-- One unfolding step of the pagination loop. -/
theorem syncFetchGo_succ (db : List Page) (pl : Option Nat) (f : Nat)
    (has_more : Bool) (cursorOpt : Option Nat) (processed : Nat)
    (accP : List Page) (accQ : List (Nat × Nat)) :
    syncFetchGo db pl (f + 1) has_more cursorOpt processed accP accQ
      = if loopCond pl has_more processed then
          (if breakCond pl
              (processed
                + (databasesQuery db cursorOpt (pageSizeFor pl processed)).results.length) then
            (⟨accP ++ (databasesQuery db cursorOpt (pageSizeFor pl processed)).results,
              accQ ++ [(processed, pageSizeFor pl processed)],
              processed
                + (databasesQuery db cursorOpt (pageSizeFor pl processed)).results.length⟩
              : FetchOut)
          else
            syncFetchGo db pl f
              (databasesQuery db cursorOpt (pageSizeFor pl processed)).has_more
              (databasesQuery db cursorOpt (pageSizeFor pl processed)).next_cursor
              (processed
                + (databasesQuery db cursorOpt (pageSizeFor pl processed)).results.length)
              (accP ++ (databasesQuery db cursorOpt (pageSizeFor pl processed)).results)
              (accQ ++ [(processed, pageSizeFor pl processed)]))
        else ⟨accP, accQ, processed⟩ := rfl

/-- With `has_more = false` the loop exits at once, returning its
accumulators. -/
theorem fetchGo_exit (db : List Page) (pl : Option Nat) (fuel : Nat)
    (cursorOpt : Option Nat) (processed : Nat) (accP : List Page)
    (accQ : List (Nat × Nat)) :
    syncFetchGo db pl fuel false cursorOpt processed accP accQ
      = ⟨accP, accQ, processed⟩ := by
  cases fuel with
  | zero => rfl
  | succ f =>
    rw [syncFetchGo_succ]
    simp [loopCond]

/-- Invariant of the pagination loop with a numeric `page_limit` `n`, entered
with `has_more = true` and a cursor standing at `processed`: the final
`pages_processed` is `max processed (min n db.length)`, `all_pages` grows by
exactly the newly processed pages, and every logged query asked for
`min 100 (remaining quota)` pages. -/
theorem fetchGo_spec (db : List Page) :
    ∀ (fuel n : Nat) (cursorOpt : Option Nat) (processed : Nat)
      (accP : List Page) (accQ : List (Nat × Nat)),
      cursorOpt.getD 0 = processed →
      processed ≤ db.length →
      db.length + 1 ≤ fuel + processed →
      (syncFetchGo db (some n) fuel true cursorOpt processed accP accQ).pages_processed
          = max processed (min n db.length)
      ∧ (syncFetchGo db (some n) fuel true cursorOpt processed accP accQ).all_pages.length
          = accP.length
            + ((syncFetchGo db (some n) fuel true cursorOpt processed accP accQ).pages_processed
               - processed)
      ∧ (∀ q ∈ (syncFetchGo db (some n) fuel true cursorOpt processed accP accQ).queries,
          q ∈ accQ ∨ q.2 = min 100 (n - q.1)) := by
  intro fuel
  induction fuel with
  | zero =>
    intro n cursorOpt processed accP accQ hc hle hfuel
    omega
  | succ f ih =>
    intro n cursorOpt processed accP accQ hc hle hfuel
    by_cases hcond : processed < n
    · obtain ⟨k, rfl⟩ : ∃ k, n = k + 1 := ⟨n - 1, by omega⟩
      have hlc : loopCond (some (k + 1)) true processed = true := by
        simp [loopCond, hcond]
      have hps : pageSizeFor (some (k + 1)) processed
          = min 100 (k + 1 - processed) := rfl
      rw [syncFetchGo_succ, if_pos hlc, hps]
      have hhm : (databasesQuery db cursorOpt (min 100 (k + 1 - processed))).has_more
          = decide (processed
              + (databasesQuery db cursorOpt (min 100 (k + 1 - processed))).results.length
              < db.length) := by
        simp [databasesQuery, hc]
      have hnc : (databasesQuery db cursorOpt (min 100 (k + 1 - processed))).next_cursor
          = (if processed
                + (databasesQuery db cursorOpt (min 100 (k + 1 - processed))).results.length
                < db.length then
              some (processed
                + (databasesQuery db cursorOpt (min 100 (k + 1 - processed))).results.length)
            else none) := by
        simp [databasesQuery, hc]
      rw [hhm, hnc]
      generalize hres : (databasesQuery db cursorOpt (min 100 (k + 1 - processed))).results
          = res
      have hlen : res.length = min (min 100 (k + 1 - processed)) (db.length - processed) := by
        rw [← hres]
        simp [databasesQuery, hc]
      rcases Nat.lt_or_ge (processed + res.length) (k + 1) with hpos | hpos
      · have hbr : ¬ (breakCond (some (k + 1)) (processed + res.length) = true) := by
          simp [breakCond]
          omega
        rw [if_neg hbr]
        by_cases hm : processed + res.length < db.length
        · have hd : decide (processed + res.length < db.length) = true := by
            simp [hm]
          rw [hd, if_pos hm]
          obtain ⟨ih1, ih2, ih3⟩ := ih (k + 1) (some (processed + res.length))
            (processed + res.length) (accP ++ res)
            (accQ ++ [(processed, min 100 (k + 1 - processed))]) rfl (by omega)
            (by omega)
          refine ⟨?_, ?_, ?_⟩
          · rw [ih1]
            omega
          · rw [ih2, ih1]
            simp only [List.length_append]
            omega
          · intro q hq
            rcases ih3 q hq with hin | heq
            · rcases List.mem_append.mp hin with h1 | h2
              · exact Or.inl h1
              · right
                rw [List.mem_singleton.mp h2]
            · exact Or.inr heq
        · have hd : decide (processed + res.length < db.length) = false := by
            simp [hm]
          rw [hd, if_neg hm, fetchGo_exit]
          refine ⟨?_, ?_, ?_⟩
          · show processed + res.length = _
            omega
          · show (accP ++ res).length = accP.length + (processed + res.length - processed)
            simp only [List.length_append]
            omega
          · intro q hq
            rcases List.mem_append.mp hq with h1 | h2
            · exact Or.inl h1
            · right
              rw [List.mem_singleton.mp h2]
      · have hbr : breakCond (some (k + 1)) (processed + res.length) = true := by
          simp [breakCond]
          omega
        rw [if_pos hbr]
        refine ⟨?_, ?_, ?_⟩
        · show processed + res.length = _
          omega
        · show (accP ++ res).length = accP.length + (processed + res.length - processed)
          simp only [List.length_append]
          omega
        · intro q hq
          rcases List.mem_append.mp hq with h1 | h2
          · exact Or.inl h1
          · right
            rw [List.mem_singleton.mp h2]
    · have hlc : loopCond (some n) true processed = false := by
        simp [loopCond]
        omega
      have hstep : syncFetchGo db (some n) (f + 1) true cursorOpt processed accP accQ
          = ⟨accP, accQ, processed⟩ := by
        rw [syncFetchGo_succ]
        simp [hlc]
      rw [hstep]
      refine ⟨?_, ?_, ?_⟩
      · show processed = _
        omega
      · show accP.length = accP.length + (processed - processed)
        omega
      · intro q hq
        exact Or.inl hq

/-- Claim C2: with a numeric `page_limit` not larger than the database, the
pagination phase fetches exactly `page_limit` pages; with `page_limit = 0`
no query is issued and nothing is fetched; and every issued query asks for
`min 100 (remaining quota)` results. -/
theorem claim_C2 (db : List Page) (n : Nat) :
    (n ≤ db.length → (syncFetch db (some n)).all_pages.length = n)
    ∧ (syncFetch db (some 0)).queries = []
    ∧ (syncFetch db (some 0)).all_pages = []
    ∧ (∀ q ∈ (syncFetch db (some n)).queries, q.2 = min 100 (n - q.1)) := by
  obtain ⟨h1, h2, h3⟩ := fetchGo_spec db (db.length + 1) n none 0 [] [] rfl
    (by omega) (by omega)
  have hstep0 : syncFetch db (some 0) = ⟨[], [], 0⟩ := by
    show syncFetchGo db (some 0) (db.length + 1) true none 0 [] [] = ⟨[], [], 0⟩
    rw [syncFetchGo_succ]
    simp [loopCond]
  simp only [List.length_nil] at h2
  refine ⟨?_, ?_, ?_, ?_⟩
  · intro hn
    show (syncFetchGo db (some n) (db.length + 1) true none 0 [] []).all_pages.length = n
    omega
  · rw [hstep0]
  · rw [hstep0]
  · intro q hq
    rcases h3 q hq with hin | heq
    · exact absurd hin (List.not_mem_nil q)
    · exact heq

/-- Witness for C2: a limit of 3 against a five-page database fetches exactly
3 pages, in one query of size `min 100 3`. -/
theorem claim_C2_witness :
    (syncFetch dbFive (some 3)).all_pages.length = 3
    ∧ (0, 3).2 = min 100 (3 - (0, 3).1) :=
  ⟨(claim_C2 dbFive 3).1 (by decide),
   (claim_C2 dbFive 3).2.2.2 (0, 3) (by decide)⟩

end VectorRouter
